import Mathlib

/- Verification of the EchoSoul memory subsystem: a shallow embedding of
   memory_engine.py, emotion_analyzer.py, ai_brain.py and timeline_manager.py,
   together with theorems checking the specification claims against the code. -/

/-- Lexicographic order on character lists by code point: the order Python uses to
compare strings (the source sorts memories with the raw timestamp string as key). -/
def lexLe : List Char → List Char → Bool
  | [], _ => true
  | _ :: _, [] => false
  | a :: xs, b :: ys =>
    if a.toNat < b.toNat then true
    else if a.toNat = b.toNat then lexLe xs ys
    else false

/-- Test that the first list occurs verbatim at the head of the second. -/
def prefixChars : List Char → List Char → Bool
  | [], _ => true
  | _ :: _, [] => false
  | a :: xs, b :: ys => a = b && prefixChars xs ys

/-- Contiguous-substring containment: the Python expression needle in haystack. -/
def containsChars (needle : List Char) : List Char → Bool
  | [] => needle.isEmpty
  | l@(_ :: rest) => prefixChars needle l || containsChars needle rest

/-- String-level substring containment, Python needle in hay. -/
def containsStr (hay needle : String) : Bool := containsChars needle.toList hay.toList

/-- ASCII lower-casing: the effect of Python str.lower on the ASCII data involved. -/
def strLower (s : String) : String := String.mk (s.toList.map Char.toLower)

/-- The whitespace set stripped by Python str.strip with no argument. -/
def isPySpace (c : Char) : Bool :=
  c = ' ' || c = '\t' || c = '\n' || c = '\r' || c = '\x0b' || c = '\x0c'

/-- Python str.strip: remove leading and trailing whitespace. -/
def pyStrip (s : String) : String :=
  String.mk (((s.toList.dropWhile isPySpace).reverse.dropWhile isPySpace).reverse)

/-- Read exactly n decimal digits, accumulating their value. -/
def readDigitsAux : Nat → Nat → List Char → Option (Nat × List Char)
  | 0, acc, cs => some (acc, cs)
  | _ + 1, _, [] => none
  | n + 1, acc, c :: cs =>
    if c.isDigit then readDigitsAux n (acc * 10 + (c.toNat - 48)) cs else none

/-- Read exactly n decimal digits from the front of a character list. -/
def readDigits (n : Nat) (cs : List Char) : Option (Nat × List Char) := readDigitsAux n 0 cs

/-- Gregorian leap-year rule. -/
def isLeapYear (y : Nat) : Bool := (y % 4 == 0 && y % 100 != 0) || y % 400 == 0

/-- Number of days in a month of a given year. -/
def daysInMonth (y m : Nat) : Nat :=
  if m == 2 then (if isLeapYear y then 29 else 28)
  else if m == 4 || m == 6 || m == 9 || m == 11 then 30
  else 31

/-- Consume one expected character. -/
def expectChar (c : Char) : List Char → Option (List Char)
  | [] => none
  | x :: xs => if x = c then some xs else none

/-- Date part of datetime.fromisoformat and of strptime with format Y-m-d:
four digit year, dash, two digit month, dash, two digit day, calendar-validated. -/
def parseYmd (cs : List Char) : Option ((Nat × Nat × Nat) × List Char) :=
  match readDigits 4 cs with
  | none => none
  | some (y, cs1) =>
    match expectChar '-' cs1 with
    | none => none
    | some cs2 =>
      match readDigits 2 cs2 with
      | none => none
      | some (m, cs3) =>
        match expectChar '-' cs3 with
        | none => none
        | some cs4 =>
          match readDigits 2 cs4 with
          | none => none
          | some (d, cs5) =>
            if 1 ≤ m ∧ m ≤ 12 ∧ 1 ≤ d ∧ d ≤ daysInMonth y m then
              some ((y, m, d), cs5)
            else none

/-- Model of datetime.strptime(date, Y-m-d): the whole string must be the date. -/
def parseDateOnly (s : String) : Option (Nat × Nat × Nat) :=
  match parseYmd s.toList with
  | some (ymd, []) => some ymd
  | _ => none

/-- Fractional seconds of an isoformat timestamp: exactly three or six digits,
yielding microseconds. -/
def parseFraction (cs : List Char) : Option (Nat × List Char) :=
  match readDigits 6 cs with
  | some (us, rest) => some (us, rest)
  | none =>
    match readDigits 3 cs with
    | some (ms, rest) => some (ms * 1000, rest)
    | none => none

/-- Time part of datetime.fromisoformat: HH colon MM, optional colon SS, optional
dot and fractional seconds. -/
def parseHms (cs : List Char) : Option ((Nat × Nat × Nat × Nat) × List Char) :=
  match readDigits 2 cs with
  | none => none
  | some (h, cs1) =>
    match expectChar ':' cs1 with
    | none => none
    | some cs2 =>
      match readDigits 2 cs2 with
      | none => none
      | some (mi, cs3) =>
        match cs3 with
        | ':' :: cs4 =>
          (match readDigits 2 cs4 with
          | none => none
          | some (sec, cs5) =>
            match cs5 with
            | '.' :: cs6 =>
              (match parseFraction cs6 with
              | none => none
              | some (us, cs7) => some ((h, mi, sec, us), cs7))
            | _ => some ((h, mi, sec, 0), cs5))
        | _ => some ((h, mi, 0, 0), cs3)

/-- Linearization of a timestamp that is strictly monotone in the instant it denotes. -/
def tsEncode (y m d h mi sec us : Nat) : Nat :=
  (((((y * 13 + m) * 32 + d) * 24 + h) * 60 + mi) * 60 + sec) * 1000000 + us

/-- Model of datetime.fromisoformat on the naive timestamps this program writes
(datetime.now().isoformat() and date literals): date, then optionally a single
separator character and a time, optionally with fractional seconds. Timezone
suffixes are never written by the program and are not modelled; any string the
model rejects is one the scan treats as unparsable. -/
def parseISO (s : String) : Option Nat :=
  match parseYmd s.toList with
  | none => none
  | some ((y, m, d), rest) =>
    match rest with
    | [] => some (tsEncode y m d 0 0 0 0)
    | _ :: timeCs =>
      match parseHms timeCs with
      | none => none
      | some ((h, mi, sec, us), []) =>
        if h < 24 ∧ mi < 60 ∧ sec < 60 then some (tsEncode y m d h mi sec us) else none
      | some (_, _ :: _) => none

example : parseISO "2024-01-01T00:00:00" = some (tsEncode 2024 1 1 0 0 0 0) := by decide
example : parseISO "2024-02-30" = none := by decide
example : parseISO "not-a-date" = none := by decide
example : (parseISO "2024-01-02T03:04:05.123456").isSome = true := by decide
example : pyStrip "  \t\n " = "" := by decide
example : containsStr "LOL hey there" "hey" = true := by decide
example : containsStr (strLower "LOL hey") "lol" = true := by decide

/- ===================== Emotion Classifier Adapter =====================
   EmotionAnalyzer.analyze_text, emotion_analyzer.py lines 31 to 81.
   The external transformers pipeline is the classifier boundary of the spec,
   section 6: it is passed in as a function returning either the label and
   score list of text_emotion_model(text)[0] or an exception. -/

/-- Update the first binding of a key in an insertion-ordered association list,
appending the key if absent: the Python dict assignment d[k] = v. Keys are in
first-insertion order, as in a Python dict. -/
def dictSet : List (String × Rat) → String → Rat → List (String × Rat)
  | [], k, v => [(k, v)]
  | (k0, v0) :: rest, k, v =>
    if k0 = k then (k0, v) :: rest else (k0, v0) :: dictSet rest k v

/-- Lookup with default zero: the Python expression d.get(k, 0). -/
def dictGet (scores : List (String × Rat)) (k : String) : Rat :=
  ((scores.find? (fun p => p.1 = k)).map Prod.snd).getD 0

/-- Accumulating update: d[k] = d.get(k, 0) + v. -/
def addScore (scores : List (String × Rat)) (k : String) (v : Rat) : List (String × Rat) :=
  dictSet scores k (dictGet scores k + v)

/-- One step of the label-mapping loop of analyze_text: lower-case the raw label
and fold it into the fixed taxonomy. The joy, sadness, anxiety and love branches
accumulate; anger, fear, surprise and disgust assign; unmatched labels are dropped. -/
def mapEmotionStep (scores : List (String × Rat)) (r : String × Rat) : List (String × Rat) :=
  let label := strLower r.1
  let score := r.2
  if label = "joy" ∨ label = "happy" then addScore scores "joy" score
  else if label = "sadness" ∨ label = "sad" then addScore scores "sadness" score
  else if label = "anger" then dictSet scores "anger" score
  else if label = "fear" then dictSet scores "fear" score
  else if label = "surprise" then dictSet scores "surprise" score
  else if label = "disgust" then dictSet scores "disgust" score
  else if containsStr label "anxiety" ∨ containsStr label "nervous" then
    addScore scores "anxiety" score
  else if containsStr label "love" ∨ containsStr label "affection" then
    addScore scores "love" score
  else scores

/-- The label-mapping loop of analyze_text over the whole classifier output. -/
def mapEmotionScores (results : List (String × Rat)) : List (String × Rat) :=
  results.foldl mapEmotionStep []

/-- Sum of the values of a score dictionary. -/
def sumScores (scores : List (String × Rat)) : Rat :=
  scores.foldl (fun a p => a + p.2) 0

/-- Normalization step of analyze_text: divide by the total when it is positive,
otherwise leave the scores untouched. -/
def normalizeScores (scores : List (String × Rat)) : List (String × Rat) :=
  let total := sumScores scores
  if 0 < total then scores.map (fun p => (p.1, p.2 / total)) else scores

/-- Python max(items, key of second component): the first maximal entry in
iteration order, none on an empty dictionary. -/
def firstMaxScore : List (String × Rat) → Option (String × Rat)
  | [] => none
  | h :: t => some (t.foldl (fun best p => if best.2 < p.2 then p else best) h)

/-- Result shape of analyze_text. The timestamp field is present exactly on the
successful classification branch, mirroring the dict returned by the source. -/
structure EmotionResult where
  dominant_emotion : String
  confidence : Rat
  all_emotions : List (String × Rat)
  timestamp : Option String
deriving DecidableEq

/-- The neutral fallback value returned by analyze_text. -/
def neutralEmotionResult : EmotionResult :=
  { dominant_emotion := "neutral", confidence := 1, all_emotions := [], timestamp := none }

/-- EmotionAnalyzer.analyze_text. The classifier argument models
self.text_emotion_model(text)[0]: an exception anywhere in that call, including
an empty pipeline result indexed by zero, is an error value, and the try block
of the source turns it into the neutral fallback. The now argument models
datetime.now().isoformat(). The function is total: it never raises. -/
def analyze_text (classify : String → Except Unit (List (String × Rat)))
    (now text : String) : EmotionResult :=
  if pyStrip text = "" then neutralEmotionResult
  else
    match classify text with
    | Except.error _ => neutralEmotionResult
    | Except.ok results =>
      let scores := normalizeScores (mapEmotionScores results)
      match firstMaxScore scores with
      | none => neutralEmotionResult
      | some d =>
        { dominant_emotion := d.1, confidence := d.2, all_emotions := scores,
          timestamp := some now }

/-- A classifier stub that always raises, used to witness the fallback behavior. -/
def classifyFail : String → Except Unit (List (String × Rat)) := fun _ => Except.error ()

example : analyze_text classifyFail "t" "good day" = neutralEmotionResult := by decide
example : analyze_text (fun _ => Except.ok [("mystery", 1)]) "t" "x" = neutralEmotionResult := by
  decide

/- ===================== Memory Store =====================
   MemoryEngine, memory_engine.py. A memory is the dict built by store_memory;
   the fields are the keys the engine reads or writes, with the get defaults of
   the source folded into total fields. Scores and embeddings are modelled as
   exact rationals; no claim depends on floating-point rounding. -/

/-- A memory record: the dict stored as a json file or an encrypted vault blob. -/
structure Memory where
  id : String
  user_id : String
  timestamp : String
  type : String
  title : String
  content : String
  emotion : String
  encrypted : Bool
  similarity : Option Rat
deriving DecidableEq

/-- Metadata inserted next to an embedding, memory_engine.py lines 128 to 135. -/
structure IndexMeta where
  type : String
  emotion : String
  timestamp : String
  is_vault : Bool
  user_id : String
  id : String
deriving DecidableEq

/-- One entry of the similarity index (a Pinecone vector with metadata). -/
structure IndexEntry where
  id : String
  embedding : List Rat
  meta : IndexMeta
deriving DecidableEq

/-- Modelled from the spec, section 4.2 Vault Cipher: the source delegates to
cryptography.fernet.Fernet, an authenticated symmetric cipher that is not part of
this repository. A ciphertext is self-contained and authenticated under the key
that produced it; decryption under any other key fails. The json serialization
of the memory dict is folded into the payload. -/
structure Ciphertext where
  key : List Nat
  payload : Memory
deriving DecidableEq

/-- Contract-level Fernet encryption keyed by the derived vault key. -/
def fernetEncrypt (key : List Nat) (m : Memory) : Ciphertext := { key := key, payload := m }

/-- Contract-level Fernet decryption: returns the payload under the matching key
and fails, as the spec DecryptionError, under any other key. -/
def fernetDecrypt (key : List Nat) (c : Ciphertext) : Option Memory :=
  if c.key = key then some c.payload else none

/-- Model of hashlib.sha256(...).digest() as a byte list. The digest is opaque;
the only property of it the proofs use is that it is exactly 32 bytes long, which
this model guarantees for every input. -/
def sha256_digest (s : String) : List Nat :=
  (List.map UInt8.toNat s.toUTF8.toList ++ List.replicate 32 0).take 32

/-- MemoryEngine._generate_encryption_key, memory_engine.py lines 76 to 79: the
sha256 digest of user_id, a colon, and the process-wide secret, truncated to 32
bytes (the truncation of the source is a no-op on a 32-byte digest). -/
def generate_encryption_key (user_id secret : String) : List Nat :=
  (sha256_digest (user_id ++ ":" ++ secret)).take 32

/-- Bytes of the url-safe base64 alphabet together with the padding byte. -/
def isUrlsafeB64Byte (b : Nat) : Bool :=
  (65 ≤ b && b ≤ 90) || (97 ≤ b && b ≤ 122) || (48 ≤ b && b ≤ 57) ||
    b == 45 || b == 95 || b == 61

/-- Upper bound on the length of base64.urlsafe_b64decode(key): characters outside
the alphabet are discarded before decoding, every four kept characters decode to at
most three bytes, and padding only shortens the result further. -/
def b64DecodedLenUB (key : List Nat) : Nat := 3 * ((key.filter isUrlsafeB64Byte).length / 4)

/-- Modelled from the library boundary the source calls into: Fernet(key)
base64-url-decodes the key and raises ValueError unless the decoded length is
exactly 32 bytes. This predicate over-approximates acceptance, so a key it
rejects is rejected by the real constructor as well. -/
def fernetKeyPossiblyAccepted (key : List Nat) : Bool := decide (32 ≤ b64DecodedLenUB key)

/-- State of one MemoryEngine: the owning user, the plain-memory directory (one
json record per id, in listing order), the vault directory (one encrypted blob
per id), and the similarity index. -/
structure EngineState where
  user_id : String
  plain : List Memory
  vault : List (String × Ciphertext)
  index : List IndexEntry
deriving DecidableEq

/-- Pinecone upsert: replace the vector with the same id, or append a new one. -/
def upsertIndex (idx : List IndexEntry) (entry : IndexEntry) : List IndexEntry :=
  if idx.any (fun x => x.id == entry.id) then
    idx.map (fun x => if x.id == entry.id then entry else x)
  else idx ++ [entry]

/-- The memory dict after the assignments at the top of store_memory. -/
def storeStamped (uid newId now : String) (memory : Memory) : Memory :=
  { memory with id := newId, timestamp := now, user_id := uid }

/-- A vault memory as stored: stamped, with the encrypted flag set. -/
def vaultStored (uid newId now : String) (memory : Memory) : Memory :=
  { storeStamped uid newId now memory with encrypted := true }

/-- A plain memory as stored: stamped, with the encrypted flag cleared. -/
def plainStored (uid newId now : String) (memory : Memory) : Memory :=
  { storeStamped uid newId now memory with encrypted := false }

/-- The text embedded for a plain memory: title, content and emotion joined by
single spaces, memory_engine.py line 124. -/
def memoryText (m : Memory) : String := m.title ++ " " ++ m.content ++ " " ++ m.emotion

/-- MemoryEngine.store_memory, memory_engine.py lines 100 to 152. The uuid and
the clock are passed in as newId and now; embed is the embedding-provider
boundary of the spec, section 6, whose failure is an exception escaping the
call. The returned pair is the result of the call together with the state the
call leaves on disk: on the non-vault path the json record is written before
the embedding is computed, so an embedding failure leaves the record behind. -/
def store_memory (secret : String) (embed : String → Except Unit (List Rat))
    (s : EngineState) (newId now : String) (memory : Memory) (is_vault : Bool) :
    Except Unit String × EngineState :=
  let m := storeStamped s.user_id newId now memory
  if is_vault then
    let mv := { m with encrypted := true }
    let blob := fernetEncrypt (generate_encryption_key s.user_id secret) mv
    (Except.ok newId, { s with vault := s.vault ++ [(newId, blob)] })
  else
    let mp := { m with encrypted := false }
    let s1 := { s with plain := s.plain ++ [mp] }
    match embed (memoryText mp) with
    | Except.error e => (Except.error e, s1)
    | Except.ok v =>
      let meta : IndexMeta :=
        { type := mp.type, emotion := mp.emotion, timestamp := mp.timestamp,
          is_vault := false, user_id := s.user_id, id := newId }
      (Except.ok newId, { s1 with index := upsertIndex s1.index ⟨newId, v, meta⟩ })

/-- MemoryEngine.get_vault_memories, memory_engine.py lines 252 to 270: decrypt
every blob in the vault directory, skipping any that fails to decrypt. -/
def get_vault_memories (secret : String) (s : EngineState) : List Memory :=
  s.vault.filterMap (fun p => fernetDecrypt (generate_encryption_key s.user_id secret) p.2)

/-- One match returned by the similarity index query. -/
structure IndexMatch where
  id : String
  score : Rat
deriving DecidableEq

/-- The existence check and load of one record file: MEMORIES_DIR contains one
json file per stored plain memory, keyed by id. -/
def lookupMem (plain : List Memory) (id : String) : Option Memory :=
  plain.find? (fun m => m.id = id)

/-- The result-assembly loop of MemoryEngine.retrieve_memories, memory_engine.py
lines 177 to 186: for each index match, if the per-id record file exists it is
loaded and annotated with the similarity score, otherwise the match is silently
skipped. The embedding of the query and the index query itself happen before
this loop; its input is the match list the index returned. -/
def retrieve_from_matches (plain : List Memory) (ms : List IndexMatch) : List Memory :=
  ms.foldl
    (fun acc mm =>
      match lookupMem plain mm.id with
      | some mem => acc ++ [{ mem with similarity := some mm.score }]
      | none => acc)
    []

/-- The end-bound check of get_timeline for a memory with parsed timestamp d:
parse the end bound if given (raising on failure) and skip memories strictly
after it, memory_engine.py lines 225 to 228. -/
def endBoundCheck (end_date : Option String) (d : Nat) : Except Unit Bool :=
  match end_date with
  | none => Except.ok true
  | some ed =>
    match parseISO ed with
    | none => Except.error ()
    | some ev => Except.ok (decide (d ≤ ev))

/-- The start-bound check of get_timeline, lines 221 to 224: parse the start
bound if given (raising on failure), skip memories strictly before it, and fall
through to the end-bound check. -/
def startBoundCheck (start_date end_date : Option String) (d : Nat) : Except Unit Bool :=
  match start_date with
  | none => endBoundCheck end_date d
  | some sd =>
    match parseISO sd with
    | none => Except.error ()
    | some sv => if d < sv then Except.ok false else endBoundCheck end_date d

/-- Decision of the date-range filter of get_timeline for one memory, memory
engine lines 219 to 228: parse the timestamp of the memory (raising on
failure), then apply the start and end checks in source order. -/
def timelineKeep (start_date end_date : Option String) (m : Memory) : Except Unit Bool :=
  match parseISO m.timestamp with
  | none => Except.error ()
  | some d => startBoundCheck start_date end_date d

/-- The directory scan of get_timeline: the first record whose filter decision
raises aborts the whole call, exactly as the uncaught ValueError of the source. -/
def timelineScan (start_date end_date : Option String) : List Memory → Except Unit (List Memory)
  | [] => Except.ok []
  | m :: rest =>
    match timelineKeep start_date end_date m with
    | Except.error e => Except.error e
    | Except.ok true => (timelineScan start_date end_date rest).map (fun l => m :: l)
    | Except.ok false => timelineScan start_date end_date rest

/-- Comparison of two memories by their raw timestamp strings, the comparison
Python list.sort performs with key timestamp. -/
def tsLe (a b : Memory) : Bool := lexLe a.timestamp.toList b.timestamp.toList

/-- Stable insertion keyed by the raw timestamp string. -/
def insertByTs (m : Memory) : List Memory → List Memory
  | [] => [m]
  | x :: xs => if tsLe m x then m :: x :: xs else x :: insertByTs m xs

/-- Stable sort by ascending timestamp string: memories.sort(key timestamp). -/
def sortByTs (l : List Memory) : List Memory := l.foldr insertByTs []

/-- MemoryEngine.get_timeline, memory_engine.py lines 207 to 234: scan the plain
record directory, filter by the optional date range, and sort the survivors by
ascending timestamp string. The scan itself raises if any processed record has a
timestamp datetime.fromisoformat rejects. -/
def get_timeline (plain : List Memory) (start_date end_date : Option String) :
    Except Unit (List Memory) :=
  (timelineScan start_date end_date plain).map sortByTs

/- ===================== Personality Profile update =====================
   EchoSoulAI._update_personality_based_on_interaction, ai_brain.py lines 345
   to 373. The trait writes it performs through update_personality_trait are
   returned as an ordered list of trait and value pairs. -/

/-- One entry of self.conversation_history as the update reads it: only the
emotion key is consulted, with default neutral folded into a total field. -/
structure Interaction where
  emotion : String
deriving DecidableEq

/-- The fixed formal-word list of ai_brain.py line 364. -/
def formal_words : List String := ["please", "thank you", "would you", "could you"]

/-- The fixed informal-word list of ai_brain.py line 365. -/
def informal_words : List String := ["lol", "omg", "hey", "wassup", "bruh"]

/-- Count of list words occurring in the lowered utterance:
sum(1 for word in words if word in user_input.lower()). -/
def countWordMatches (words : List String) (lowered : String) : Nat :=
  (words.filter (fun w => containsStr lowered w)).length

/-- Number of non-neutral emotions among the last ten history entries:
the emotional_content count of ai_brain.py lines 351 to 357. -/
def recentNonNeutral (history : List Interaction) : Nat :=
  (((history.drop (history.length - 10)).map Interaction.emotion).filter
    (fun e => e ≠ "neutral")).length

/-- EchoSoulAI._update_personality_based_on_interaction. Nothing happens unless
the history is strictly longer than ten entries; then the empathy rule fires when
more than seven of the last ten emotions are non-neutral, and the formality rule
compares informal against formal word matches, leaving formality unchanged on a
tie. The result lists the update_personality_trait calls in order. -/
def update_personality_based_on_interaction (history : List Interaction)
    (user_input : String) : List (String × String) :=
  if 10 < history.length then
    let empathyWrites :=
      if 7 < recentNonNeutral history then [("empathy_level", "very_high")] else []
    let lowered := strLower user_input
    let formal_count := countWordMatches formal_words lowered
    let informal_count := countWordMatches informal_words lowered
    let formalityWrites :=
      if formal_count < informal_count then [("formality", "very_casual")]
      else if informal_count < formal_count then [("formality", "formal")]
      else []
    empathyWrites ++ formalityWrites
  else []

/- ===================== Timeline Aggregator =====================
   TimelineManager.get_emotion_statistics and TimelineManager._generate_insights,
   timeline_manager.py lines 98 to 202, over the entries produced by
   get_timeline_data. -/

/-- One timeline entry as the statistics read it: emotion (default neutral),
type (default unknown) and the date slice of the timestamp, all total fields. -/
structure TimelineEntry where
  emotion : String
  type : String
  date : String
deriving DecidableEq

/-- Increment of a defaultdict(int) counter keyed by string, preserving the
first-insertion iteration order of a Python dict. -/
def bumpCount : List (String × Nat) → String → List (String × Nat)
  | [], k => [(k, 1)]
  | (k0, v) :: rest, k =>
    if k0 = k then (k0, v + 1) :: rest else (k0, v) :: bumpCount rest k

/-- Increment in a two-level defaultdict of counters. -/
def bumpNested : List (String × List (String × Nat)) → String → String →
    List (String × List (String × Nat))
  | [], k1, k2 => [(k1, bumpCount [] k2)]
  | (k, inner) :: rest, k1, k2 =>
    if k = k1 then (k, bumpCount inner k2) :: rest
    else (k, inner) :: bumpNested rest k1 k2

/-- The emotion_count dictionary of get_emotion_statistics: one increment per
timeline entry, keyed by its emotion. -/
def emotionCountOf (timeline_data : List TimelineEntry) : List (String × Nat) :=
  timeline_data.foldl (fun acc entry => bumpCount acc entry.emotion) []

/-- Python max(items, key of second component) on a counter: the first maximal
entry in iteration order, none when the dictionary is empty. -/
def firstMaxCount : List (String × Nat) → Option (String × Nat)
  | [] => none
  | h :: t => some (t.foldl (fun best p => if best.2 < p.2 then p else best) h)

/-- Sum of the values of a counter dictionary. -/
def sumCounts (l : List (String × Nat)) : Nat := l.foldl (fun a p => a + p.2) 0

/-- Lookup with default zero in a counter: emotion_count.get(e, 0). -/
def countGet (l : List (String × Nat)) (k : String) : Nat :=
  ((l.find? (fun p => p.1 = k)).map Prod.snd).getD 0

/-- TimelineManager.get_available_emotions, timeline_manager.py lines 150 to 153:
the eleven-label list the aggregator divides by. It omits disgust and nostalgia
from the thirteen-label taxonomy of the classifier. -/
def get_available_emotions : List String :=
  ["joy", "sadness", "anger", "fear", "surprise", "love",
   "anxiety", "stress", "neutral", "excitement", "contentment"]

/-- The positive-emotion set of _generate_insights, timeline_manager.py line 177. -/
def positive_emotions : List String := ["joy", "love", "excitement", "contentment", "surprise"]

/-- The negative-emotion set of _generate_insights, timeline_manager.py line 178. -/
def negative_emotions : List String := ["sadness", "anger", "fear", "anxiety", "stress"]

/-- Round-to-nearest with ties to even of n divided by d, the rounding of the
Python format specifier .1f applied to count over total times 1000. The source
formats an IEEE double; the exact-rational rounding here can differ from it only
in the final digit of the percentage, which no claim depends on. -/
def roundNearest (n d : Nat) : Nat :=
  if d = 0 then 0
  else
    let q := n / d
    let r := n % d
    if 2 * r < d then q
    else if d < 2 * r then q + 1
    else if q % 2 = 0 then q else q + 1

/-- The percentage text of insight one: count over total as a percentage with
one decimal place. -/
def fmtPct (count total : Nat) : String :=
  let t := roundNearest (count * 1000) total
  toString (t / 10) ++ "." ++ toString (t % 10)

/-- Insight rule one, timeline_manager.py lines 163 to 167: report the most
frequent emotion and its share when the counter is non-empty. -/
def rule1Insight (emotion_count : List (String × Nat)) (total : Nat) : List String :=
  match firstMaxCount emotion_count with
  | none => []
  | some p =>
    ["You most frequently experience " ++ p.1 ++ " (" ++ fmtPct p.2 total ++
      "% of memories)"]

/-- Insight rule two, lines 169 to 174: wide emotional range at eight or more
distinct emotions, narrow focus at three or fewer, silence in between. -/
def rule2Insight (emotion_count : List (String × Nat)) : List String :=
  let unique_emotions := emotion_count.length
  if 8 ≤ unique_emotions then
    ["You express a wide range of emotions, showing emotional diversity"]
  else if unique_emotions ≤ 3 then
    ["Your emotional expressions tend to focus on a few core feelings"]
  else []

/-- Insight rule three, lines 176 to 188: positive against negative counts with
a one-and-a-half dominance threshold each way, and a balanced default. The
Python comparison against count times 1.5 is the exact comparison of twice one
side against three times the other. -/
def rule3Insight (emotion_count : List (String × Nat)) : List String :=
  let pos_count := positive_emotions.foldl (fun a e => a + countGet emotion_count e) 0
  let neg_count := negative_emotions.foldl (fun a e => a + countGet emotion_count e) 0
  if 3 * neg_count < 2 * pos_count then ["Your memories lean toward positive experiences"]
  else if 3 * pos_count < 2 * neg_count then
    ["You\x27ve been processing more challenging emotions lately"]
  else ["You maintain a balanced emotional perspective"]

/-- Insight rule four, lines 190 to 200: with at least ten entries, the simple
majority lean of the last ten, silent on a tie. -/
def rule4Insight (timeline_data : List TimelineEntry) : List String :=
  if 10 ≤ timeline_data.length then
    let recent := timeline_data.drop (timeline_data.length - 10)
    let recent_pos := (recent.filter (fun e => positive_emotions.contains e.emotion)).length
    let recent_neg := (recent.filter (fun e => negative_emotions.contains e.emotion)).length
    if recent_neg < recent_pos then
      ["Recently, you\x27ve been in a more positive emotional space"]
    else if recent_pos < recent_neg then
      ["Lately, you\x27ve been working through more complex emotions"]
    else []
  else []

/-- TimelineManager._generate_insights, timeline_manager.py lines 155 to 202:
the four rules evaluated in order, appended to one list, truncated to three. -/
def generate_insights (emotion_count : List (String × Nat))
    (timeline_data : List TimelineEntry) : List String :=
  let total := sumCounts emotion_count
  if total = 0 then ["No data available yet"]
  else
    (rule1Insight emotion_count total ++ rule2Insight emotion_count ++
      rule3Insight emotion_count ++ rule4Insight timeline_data).take 3

/-- Full weekday names as strftime format A produces, indexed with Sunday as
zero to match the day-of-week computation below. -/
def dayNames : List String :=
  ["Sunday", "Monday", "Tuesday", "Wednesday", "Thursday", "Friday", "Saturday"]

/-- Day of week of a Gregorian date, zero for Sunday. -/
def dayOfWeek (y m d : Nat) : Nat :=
  let t := [0, 3, 2, 5, 0, 3, 5, 1, 4, 6, 2, 4]
  let y1 := if m < 3 then y - 1 else y
  (y1 + y1 / 4 - y1 / 100 + y1 / 400 + t.getD (m - 1) 0 + d) % 7

/-- Weekday name of a date triple. -/
def dayNameOf (ymd : Nat × Nat × Nat) : String :=
  dayNames.getD (dayOfWeek ymd.1 ymd.2.1 ymd.2.2) ""

/-- The day_patterns accumulation of get_emotion_statistics, lines 121 to 129:
entries whose date fails to parse are skipped by the try block. -/
def dayPatternsOf (timeline_data : List TimelineEntry) :
    List (String × List (String × Nat)) :=
  timeline_data.foldl
    (fun acc entry =>
      match parseDateOnly entry.date with
      | some ymd => bumpNested acc (dayNameOf ymd) entry.emotion
      | none => acc)
    []

/-- The most_emotional_day selection, lines 131 to 138: the first day in
iteration order whose total strictly exceeds all earlier ones, none when no day
was recorded. -/
def mostEmotionalDay (day_patterns : List (String × List (String × Nat))) : Option String :=
  (day_patterns.foldl
    (fun best p =>
      let total := sumCounts p.2
      if best.2 < total then (some p.1, total) else best)
    (none, 0)).1

/-- The statistics dict returned by get_emotion_statistics. The emotion_dates
accumulation of the source is dropped: it contributes to no returned value. -/
structure TimelineStats where
  total_memories : Nat
  emotion_distribution : List (String × Nat)
  dominant_emotion : String
  emotion_by_type : List (String × List (String × Nat))
  most_emotional_day : Option String
  emotional_diversity : Rat
  insights : List String
deriving DecidableEq

/-- TimelineManager.get_emotion_statistics, timeline_manager.py lines 98 to 148:
none models the bare empty dict returned for an empty window. -/
def get_emotion_statistics (timeline_data : List TimelineEntry) : Option TimelineStats :=
  if timeline_data.isEmpty then none
  else
    let emotion_count := emotionCountOf timeline_data
    let emotion_by_type :=
      timeline_data.foldl (fun acc entry => bumpNested acc entry.type entry.emotion) []
    let dominant_emotion :=
      match firstMaxCount emotion_count with
      | some p => p.1
      | none => "neutral"
    some
      { total_memories := timeline_data.length
        emotion_distribution := emotion_count
        dominant_emotion := dominant_emotion
        emotion_by_type := emotion_by_type
        most_emotional_day := mostEmotionalDay (dayPatternsOf timeline_data)
        emotional_diversity :=
          (emotion_count.length : Rat) / (get_available_emotions.length : Rat)
        insights := generate_insights emotion_count timeline_data }

/-- The fixed thirteen-label taxonomy of the classifier,
EmotionAnalyzer.emotion_categories, emotion_analyzer.py lines 21 to 26. -/
def emotion_categories : List String :=
  ["joy", "sadness", "anger", "fear", "surprise", "disgust", "neutral",
   "excitement", "anxiety", "stress", "contentment", "love", "nostalgia"]

/- ===================== Claim C2 ===================== -/

/-- Claim C2 (code bug): the derived vault key is the raw 32-byte sha256 digest,
but the Fernet constructor the engine hands it to requires a url-safe-base64
encoded key whose decoding has exactly 32 bytes. A 32-byte input decodes to at
most 24 bytes, so the constructor rejects the derived key for every user and
secret, and no vault encryption or decryption ever runs: the round-trip the
claim states cannot hold on this code. -/
theorem C2_fernet_rejects_derived_key (user_id secret : String) :
    (generate_encryption_key user_id secret).length = 32 ∧
    fernetKeyPossiblyAccepted (generate_encryption_key user_id secret) = false := by
  have hlen : (generate_encryption_key user_id secret).length = 32 := by
    simp only [generate_encryption_key, sha256_digest, List.length_take,
      List.length_append, List.length_replicate]
    omega
  refine ⟨hlen, ?_⟩
  have hfil : ((generate_encryption_key user_id secret).filter isUrlsafeB64Byte).length ≤ 32 := by
    calc ((generate_encryption_key user_id secret).filter isUrlsafeB64Byte).length
        ≤ (generate_encryption_key user_id secret).length := List.length_filter_le _ _
      _ = 32 := hlen
  have hub : b64DecodedLenUB (generate_encryption_key user_id secret) ≤ 24 := by
    unfold b64DecodedLenUB
    omega
  exact decide_eq_false (by omega)

/- ===================== Claim C3 ===================== -/

/-- Claim C3 (confirmed): analyze_text returns the neutral result, without
consulting the classifier, on every empty or whitespace-only input; and for any
input it returns the same neutral result whenever the classifier raises or its
output maps to no taxonomy label. The function is total, so it never raises
past its boundary. -/
theorem C3_neutral_fallback
    (classify classify2 : String → Except Unit (List (String × Rat))) (now text : String) :
    (pyStrip text = "" →
      analyze_text classify now text = neutralEmotionResult ∧
      analyze_text classify now text = analyze_text classify2 now text) ∧
    (classify text = Except.error () →
      analyze_text classify now text = neutralEmotionResult) ∧
    (∀ results, classify text = Except.ok results → mapEmotionScores results = [] →
      analyze_text classify now text = neutralEmotionResult) := by
  refine ⟨fun h => ?_, fun h => ?_, fun results h hm => ?_⟩
  · constructor <;> simp [analyze_text, h]
  · unfold analyze_text
    by_cases hs : pyStrip text = "" <;> simp [hs, h]
  · unfold analyze_text
    by_cases hs : pyStrip text = "" <;>
      simp [hs, h, hm, normalizeScores, sumScores, firstMaxScore]

/-- Witness for C3 at concrete inputs: a whitespace-only text and a raising
classifier both produce the neutral result. -/
theorem C3_neutral_fallback_witness :
    analyze_text classifyFail "now" "   " = neutralEmotionResult ∧
    analyze_text classifyFail "now" "sad text" = neutralEmotionResult :=
  ⟨((C3_neutral_fallback classifyFail classifyFail "now" "   ").1 (by decide)).1,
   (C3_neutral_fallback classifyFail classifyFail "now" "sad text").2.1 rfl⟩

/- ===================== Claim C10 ===================== -/

/-- The result-assembly loop written as a filterMap over the match list. -/
lemma retrieve_foldl_eq (plain : List Memory) (ms : List IndexMatch) (acc : List Memory) :
    ms.foldl
      (fun acc mm =>
        match lookupMem plain mm.id with
        | some mem => acc ++ [{ mem with similarity := some mm.score }]
        | none => acc)
      acc =
    acc ++ ms.filterMap
      (fun mm => (lookupMem plain mm.id).map
        (fun mem => { mem with similarity := some mm.score })) := by
  induction ms generalizing acc with
  | nil => simp
  | cons mm rest ih =>
    rw [List.foldl_cons, List.filterMap_cons]
    cases h : lookupMem plain mm.id with
    | none => simp only [h, Option.map_none', ih]
    | some mem => simp only [h, Option.map_some', ih, List.append_assoc, List.singleton_append]

/-- Claim C10 (confirmed): the index-backed retrieval loop returns exactly the
matches whose per-id record file exists, in match order, each annotated with its
similarity score; a match whose record is missing is silently dropped, so the
result can be shorter than the match list, and the loop is total. -/
theorem C10_retrieve_skips_missing (plain : List Memory) (ms : List IndexMatch) :
    retrieve_from_matches plain ms =
      ms.filterMap
        (fun mm => (lookupMem plain mm.id).map
          (fun mem => { mem with similarity := some mm.score })) ∧
    (retrieve_from_matches plain ms).length ≤ ms.length ∧
    (∀ rm ∈ retrieve_from_matches plain ms, ∃ mm ∈ ms, ∃ mem,
      lookupMem plain mm.id = some mem ∧ rm = { mem with similarity := some mm.score }) := by
  have heq : retrieve_from_matches plain ms =
      ms.filterMap
        (fun mm => (lookupMem plain mm.id).map
          (fun mem => { mem with similarity := some mm.score })) := by
    unfold retrieve_from_matches
    simpa using retrieve_foldl_eq plain ms []
  refine ⟨heq, ?_, ?_⟩
  · rw [heq]; exact List.length_filterMap_le _ _
  · intro rm hrm
    rw [heq] at hrm
    obtain ⟨mm, hmm, hmap⟩ := List.mem_filterMap.1 hrm
    obtain ⟨mem, hfind, hrm2⟩ := Option.map_eq_some'.1 hmap
    exact ⟨mm, hmm, mem, hfind, hrm2.symm⟩

/-- A two-record plain partition used by concrete retrieval checks. -/
def plainDemo : List Memory :=
  [{ id := "a", user_id := "alice", timestamp := "2024-01-01", type := "conversation",
     title := "t", content := "hello", emotion := "joy", encrypted := false,
     similarity := none }]

/-- Index matches naming one present and one absent record. -/
def matchesDemo : List IndexMatch := [{ id := "a", score := 1 }, { id := "ghost", score := 1 }]

/-- Witness for C10 at concrete inputs: the match naming a missing record file
is dropped and the surviving record carries its similarity score. -/
theorem C10_retrieve_skips_missing_witness :
    retrieve_from_matches plainDemo matchesDemo =
      matchesDemo.filterMap
        (fun mm => (lookupMem plainDemo mm.id).map
          (fun mem => { mem with similarity := some mm.score })) :=
  (C10_retrieve_skips_missing plainDemo matchesDemo).1

/- ===================== Claims C6 and C7 ===================== -/

/-- A ten-entry history with eight non-neutral emotions: the scenario of the
spec, on which the strict greater-than-ten gate of the source does not fire. -/
def tenHistory : List Interaction :=
  List.replicate 8 { emotion := "joy" } ++ List.replicate 2 { emotion := "neutral" }

/-- Counterexample to C6 as stated: after exactly ten interactions, eight of
them non-neutral, the trait update performs no write at all, because the gate
of the source is len(history) strictly greater than ten, not at least ten. -/
theorem C6_exactly_ten_no_update_cex :
    tenHistory.length = 10 ∧ 7 < recentNonNeutral tenHistory ∧
    update_personality_based_on_interaction tenHistory "hello" = [] := by
  refine ⟨by decide, by decide, by decide⟩

/-- Claim C6 as amended: once the history is strictly longer than ten entries,
a trait-update call with more than seven non-neutral emotions among the last
ten writes empathy_level very_high. -/
theorem C6_empathy_amended (history : List Interaction) (user_input : String)
    (hlen : 10 < history.length) (hcount : 7 < recentNonNeutral history) :
    ("empathy_level", "very_high") ∈
      update_personality_based_on_interaction history user_input := by
  unfold update_personality_based_on_interaction
  rw [if_pos hlen]
  simp only [if_pos hcount]
  exact List.mem_append_left _ (List.mem_singleton_self _)

/-- An eleven-entry history with eight non-neutral emotions among the last ten. -/
def elevenHistory : List Interaction :=
  List.replicate 3 { emotion := "neutral" } ++ List.replicate 8 { emotion := "joy" }

/-- Witness for the amended C6 at a concrete history of eleven interactions. -/
theorem C6_empathy_amended_witness :
    ("empathy_level", "very_high") ∈
      update_personality_based_on_interaction elevenHistory "ok" :=
  C6_empathy_amended elevenHistory "ok" (by decide) (by decide)

/-- Counterexample to C7 as stated: the formality scan is gated behind the same
strictly-greater-than-ten history check as the empathy rule, so on a short
history an utterance containing lol and hey and no formal words leaves
formality untouched. -/
theorem C7_short_history_cex :
    containsStr (strLower "lol hey") "lol" = true ∧
    containsStr (strLower "lol hey") "hey" = true ∧
    countWordMatches formal_words (strLower "lol hey") = 0 ∧
    update_personality_based_on_interaction [] "lol hey" = [] := by
  refine ⟨by decide, by decide, by decide, by decide⟩

/-- Claim C7 as amended: once the history is strictly longer than ten entries,
the formality writes of a trait-update call are exactly the case-insensitive
word-count comparison of the claim, with ties leaving formality unchanged; in
particular an utterance containing lol with no formal-word matches sets
formality to very_casual. -/
theorem C7_formality_amended (history : List Interaction) (user_input : String)
    (hlen : 10 < history.length) :
    (update_personality_based_on_interaction history user_input).filter
        (fun p => p.1 = "formality") =
      (if countWordMatches formal_words (strLower user_input) <
            countWordMatches informal_words (strLower user_input) then
          [("formality", "very_casual")]
        else if countWordMatches informal_words (strLower user_input) <
            countWordMatches formal_words (strLower user_input) then
          [("formality", "formal")]
        else []) ∧
    (containsStr (strLower user_input) "lol" = true →
      countWordMatches formal_words (strLower user_input) = 0 →
      ("formality", "very_casual") ∈
        update_personality_based_on_interaction history user_input) := by
  constructor
  · unfold update_personality_based_on_interaction
    rw [if_pos hlen]
    by_cases h1 : 7 < recentNonNeutral history <;>
      by_cases h2 : countWordMatches formal_words (strLower user_input) <
          countWordMatches informal_words (strLower user_input) <;>
      by_cases h3 : countWordMatches informal_words (strLower user_input) <
          countWordMatches formal_words (strLower user_input) <;>
      simp [h1, h2, h3]
  · intro hlol hfc
    have hmem : "lol" ∈ informal_words.filter
        (fun w => containsStr (strLower user_input) w) :=
      List.mem_filter.2 ⟨by decide, hlol⟩
    have hpos : 0 < countWordMatches informal_words (strLower user_input) := by
      unfold countWordMatches
      exact List.length_pos_of_mem hmem
    have h2 : countWordMatches formal_words (strLower user_input) <
        countWordMatches informal_words (strLower user_input) := hfc ▸ hpos
    unfold update_personality_based_on_interaction
    rw [if_pos hlen]
    simp only [if_pos h2]
    exact List.mem_append_right _ (List.mem_singleton_self _)

/-- Witness for the amended C7: with an eleven-entry history, the utterance
lol hey sets formality to very_casual. -/
theorem C7_formality_amended_witness :
    ("formality", "very_casual") ∈
      update_personality_based_on_interaction elevenHistory "lol hey" :=
  (C7_formality_amended elevenHistory "lol hey" (by decide)).2 (by decide) (by decide)

/- ===================== Claim C1 ===================== -/

/-- Every record the retrieval loop returns is a stored plain record annotated
with a score, so its id is the id of a record of the plain partition. -/
lemma retrieve_mem_plain (plain : List Memory) (ms : List IndexMatch) (rm : Memory)
    (hrm : rm ∈ retrieve_from_matches plain ms) : ∃ mem ∈ plain, rm.id = mem.id := by
  unfold retrieve_from_matches at hrm
  rw [retrieve_foldl_eq, List.nil_append] at hrm
  obtain ⟨mm, _, hmap⟩ := List.mem_filterMap.1 hrm
  obtain ⟨mem, hfind, hrm2⟩ := Option.map_eq_some'.1 hmap
  exact ⟨mem, List.mem_of_find?_eq_some hfind, by rw [← hrm2]⟩

/-- Claim C1 (confirmed): storing a memory with the vault flag set succeeds,
touches neither the plain partition nor the similarity index, appends exactly
one encrypted blob to the vault partition, leaves every get_timeline result
unchanged, can never surface in the retrieval loop under a fresh id, and is
returned, decrypted, by get_vault_memories under the same engine key. -/
theorem C1_vault_isolation (secret : String) (embed : String → Except Unit (List Rat))
    (s : EngineState) (newId now : String) (memory : Memory) (sd ed : Option String)
    (hfresh : ∀ m ∈ s.plain, m.id ≠ newId) :
    (store_memory secret embed s newId now memory true).1 = Except.ok newId ∧
    (store_memory secret embed s newId now memory true).2.plain = s.plain ∧
    (store_memory secret embed s newId now memory true).2.index = s.index ∧
    (store_memory secret embed s newId now memory true).2.vault =
      s.vault ++ [(newId, fernetEncrypt (generate_encryption_key s.user_id secret)
        (vaultStored s.user_id newId now memory))] ∧
    get_timeline (store_memory secret embed s newId now memory true).2.plain sd ed =
      get_timeline s.plain sd ed ∧
    (∀ ms rm, rm ∈ retrieve_from_matches
        (store_memory secret embed s newId now memory true).2.plain ms → rm.id ≠ newId) ∧
    get_vault_memories secret (store_memory secret embed s newId now memory true).2 =
      get_vault_memories secret s ++ [vaultStored s.user_id newId now memory] := by
  refine ⟨rfl, rfl, rfl, rfl, rfl, ?_, ?_⟩
  · intro ms rm hrm
    obtain ⟨mem, hmem, hid⟩ := retrieve_mem_plain s.plain ms rm hrm
    rw [hid]
    exact hfresh mem hmem
  · show (s.vault ++ [(newId, fernetEncrypt (generate_encryption_key s.user_id secret)
        (vaultStored s.user_id newId now memory))]).filterMap
      (fun p => fernetDecrypt (generate_encryption_key s.user_id secret) p.2) =
      get_vault_memories secret s ++ [vaultStored s.user_id newId now memory]
    rw [List.filterMap_append]
    simp [get_vault_memories, fernetDecrypt, fernetEncrypt]

/-- An engine for user alice with empty partitions and an empty index. -/
def engineDemo : EngineState := { user_id := "alice", plain := [], vault := [], index := [] }

/-- An embedding provider that always succeeds. -/
def embedOk : String → Except Unit (List Rat) := fun _ => Except.ok [1, 0]

/-- An embedding provider whose failure escapes as an exception. -/
def embedFail : String → Except Unit (List Rat) := fun _ => Except.error ()

/-- The caller-supplied memory of the vault scenario of the spec. -/
def memDemo : Memory :=
  { id := "", user_id := "", timestamp := "", type := "conversation", title := "t",
    content := "secret X", emotion := "neutral", encrypted := false, similarity := none }

/-- Witness for C1: a vault store into an empty engine is returned, decrypted,
by get_vault_memories. -/
theorem C1_vault_isolation_witness :
    get_vault_memories "app-secret"
        (store_memory "app-secret" embedOk engineDemo "id1" "2024-01-02T03:04:05"
          memDemo true).2 =
      get_vault_memories "app-secret" engineDemo ++
        [vaultStored "alice" "id1" "2024-01-02T03:04:05" memDemo] :=
  (C1_vault_isolation "app-secret" embedOk engineDemo "id1" "2024-01-02T03:04:05"
    memDemo none none (by decide)).2.2.2.2.2.2

/- ===================== Claim C4 ===================== -/

/-- Counterexample to C4 as stated: when the embedding provider fails, the
store call raises, yet the json record written before the embedding step stays
in the plain partition, is absent from the index, and is reported by
get_timeline: a durable record with no index entry is left behind. -/
theorem C4_partial_write_cex :
    (store_memory "app-secret" embedFail engineDemo "id9" "2024-01-01T00:00:00"
        memDemo false).1 = Except.error () ∧
    (store_memory "app-secret" embedFail engineDemo "id9" "2024-01-01T00:00:00"
        memDemo false).2.plain =
      [plainStored "alice" "id9" "2024-01-01T00:00:00" memDemo] ∧
    (store_memory "app-secret" embedFail engineDemo "id9" "2024-01-01T00:00:00"
        memDemo false).2.index = [] ∧
    get_timeline (store_memory "app-secret" embedFail engineDemo "id9"
        "2024-01-01T00:00:00" memDemo false).2.plain none none =
      Except.ok [plainStored "alice" "id9" "2024-01-01T00:00:00" memDemo] :=
  ⟨rfl, rfl, rfl, rfl⟩

/-- Claim C4 as amended: an embedding failure makes the non-vault store call
fail and leaves the index and vault untouched, but the durable plain record has
already been written when the failure hits, and it remains in the partition. -/
theorem C4_store_embedding_failure (secret : String)
    (embed : String → Except Unit (List Rat)) (s : EngineState)
    (newId now : String) (memory : Memory)
    (h : embed (memoryText (plainStored s.user_id newId now memory)) = Except.error ()) :
    store_memory secret embed s newId now memory false =
      (Except.error (),
        { s with plain := s.plain ++ [plainStored s.user_id newId now memory] }) := by
  unfold plainStored at h
  unfold store_memory
  simp only [Bool.false_eq_true, if_false, h]
  rfl

/-- Witness for the amended C4 at a concrete failing provider. -/
theorem C4_store_embedding_failure_witness :
    store_memory "app-secret" embedFail engineDemo "id9" "2024-01-01T00:00:00"
        memDemo false =
      (Except.error (),
        { engineDemo with plain := engineDemo.plain ++
            [plainStored "alice" "id9" "2024-01-01T00:00:00" memDemo] }) :=
  C4_store_embedding_failure "app-secret" embedFail engineDemo "id9"
    "2024-01-01T00:00:00" memDemo rfl

/- ===================== Claim C5 ===================== -/

/-- The lexicographic order on character lists is total. -/
lemma lexLe_total : ∀ xs ys : List Char, lexLe xs ys = true ∨ lexLe ys xs = true
  | [], _ => Or.inl rfl
  | _ :: _, [] => Or.inr rfl
  | x :: xs, y :: ys => by
    unfold lexLe
    rcases Nat.lt_trichotomy x.toNat y.toNat with h | h | h
    · left; rw [if_pos h]
    · have hn1 : ¬x.toNat < y.toNat := by omega
      have hn2 : ¬y.toNat < x.toNat := by omega
      rcases lexLe_total xs ys with ih | ih
      · left; rw [if_neg hn1, if_pos h]; exact ih
      · right; rw [if_neg hn2, if_pos h.symm]; exact ih
    · right; rw [if_pos h]

/-- The lexicographic order on character lists is transitive. -/
lemma lexLe_trans : ∀ xs ys zs : List Char,
    lexLe xs ys = true → lexLe ys zs = true → lexLe xs zs = true
  | [], _, _, _, _ => rfl
  | _ :: _, [], _, h1, _ => by simp [lexLe] at h1
  | _ :: _, _ :: _, [], _, h2 => by simp [lexLe] at h2
  | x :: xs, y :: ys, z :: zs, h1, h2 => by
    unfold lexLe at h1 h2 ⊢
    by_cases hxy : x.toNat < y.toNat
    · by_cases hxz : x.toNat < z.toNat
      · rw [if_pos hxz]
      · by_cases hyz : y.toNat < z.toNat
        · omega
        · by_cases hyz2 : y.toNat = z.toNat
          · omega
          · rw [if_neg hyz, if_neg hyz2] at h2; simp at h2
    · by_cases hxy2 : x.toNat = y.toNat
      · rw [if_neg hxy, if_pos hxy2] at h1
        by_cases hyz : y.toNat < z.toNat
        · rw [if_pos (show x.toNat < z.toNat by omega)]
        · by_cases hyz2 : y.toNat = z.toNat
          · rw [if_neg hyz, if_pos hyz2] at h2
            rw [if_neg (show ¬x.toNat < z.toNat by omega),
              if_pos (show x.toNat = z.toNat by omega)]
            exact lexLe_trans xs ys zs h1 h2
          · rw [if_neg hyz, if_neg hyz2] at h2; simp at h2
      · rw [if_neg hxy, if_neg hxy2] at h1; simp at h1

/-- Totality of the timestamp comparison. -/
lemma tsLe_total (a b : Memory) : tsLe a b = true ∨ tsLe b a = true := lexLe_total _ _

/-- Transitivity of the timestamp comparison. -/
lemma tsLe_trans {a b c : Memory} (h1 : tsLe a b = true) (h2 : tsLe b c = true) :
    tsLe a c = true := lexLe_trans _ _ _ h1 h2

/-- The pairwise ordering relation of the sorted timeline. -/
def tsLeProp (a b : Memory) : Prop := tsLe a b = true

/-- Membership through timestamp-ordered insertion. -/
lemma mem_insertByTs (m a : Memory) : ∀ l : List Memory,
    a ∈ insertByTs m l ↔ a = m ∨ a ∈ l
  | [] => by simp [insertByTs]
  | x :: xs => by
    unfold insertByTs
    by_cases h : tsLe m x = true
    · rw [if_pos h]
      simp [List.mem_cons]
    · rw [if_neg h]
      simp only [List.mem_cons, mem_insertByTs m a xs]
      tauto

/-- Timestamp-ordered insertion preserves pairwise sortedness. -/
lemma pairwise_insertByTs (m : Memory) : ∀ l : List Memory,
    l.Pairwise tsLeProp → (insertByTs m l).Pairwise tsLeProp
  | [], _ => by simp [insertByTs, tsLeProp]
  | x :: xs, h => by
    obtain ⟨hx, hxs⟩ := List.pairwise_cons.1 h
    unfold insertByTs
    by_cases h1 : tsLe m x = true
    · rw [if_pos h1]
      refine List.pairwise_cons.2 ⟨?_, h⟩
      intro b hb
      rcases List.mem_cons.1 hb with rfl | hbx
      · exact h1
      · exact tsLe_trans h1 (hx b hbx)
    · rw [if_neg h1]
      refine List.pairwise_cons.2 ⟨?_, pairwise_insertByTs m xs hxs⟩
      intro b hb
      rcases (mem_insertByTs m b xs).1 hb with rfl | hbx
      · rcases tsLe_total b x with hmx | hxm
        · exact absurd hmx h1
        · exact hxm
      · exact hx b hbx

/-- The timeline sort produces a list pairwise ordered by ascending timestamp. -/
lemma pairwise_sortByTs : ∀ l : List Memory, (sortByTs l).Pairwise tsLeProp
  | [] => List.Pairwise.nil
  | x :: xs => pairwise_insertByTs x (sortByTs xs) (pairwise_sortByTs xs)

/-- Whether an optional bound string, when present, parses. -/
def optParses : Option String → Bool
  | none => true
  | some s => (parseISO s).isSome

/-- The start side of the inclusive-bounds test: start, if given, is at most
the parsed timestamp. -/
def startOkB (start_date : Option String) (d : Nat) : Bool :=
  match start_date with
  | none => true
  | some sd => decide ((parseISO sd).getD 0 ≤ d)

/-- The end side of the inclusive-bounds test: the parsed timestamp is at most
end, if given. -/
def endOkB (end_date : Option String) (d : Nat) : Bool :=
  match end_date with
  | none => true
  | some ed => decide (d ≤ (parseISO ed).getD 0)

/-- The inclusive-bounds filter the spec describes, on parsed timestamp values. -/
def inclusiveBetween (start_date end_date : Option String) (m : Memory) : Bool :=
  startOkB start_date ((parseISO m.timestamp).getD 0) &&
    endOkB end_date ((parseISO m.timestamp).getD 0)

/-- When the end bound parses, the end check is the inclusive comparison. -/
lemma endBoundCheck_parses (end_date : Option String) (d : Nat)
    (he : optParses end_date = true) :
    endBoundCheck end_date d = Except.ok (endOkB end_date d) := by
  cases end_date with
  | none => rfl
  | some ed =>
    obtain ⟨ev, hev⟩ := Option.isSome_iff_exists.1 he
    simp [endBoundCheck, endOkB, hev]

/-- When both given bounds parse, the bound checks amount to the inclusive test. -/
lemma startBoundCheck_parses (start_date end_date : Option String) (d : Nat)
    (hs : optParses start_date = true) (he : optParses end_date = true) :
    startBoundCheck start_date end_date d =
      Except.ok (startOkB start_date d && endOkB end_date d) := by
  cases start_date with
  | none =>
    rw [show startBoundCheck none end_date d = endBoundCheck end_date d from rfl,
      endBoundCheck_parses end_date d he]
    simp [startOkB]
  | some sd =>
    obtain ⟨sv, hsv⟩ := Option.isSome_iff_exists.1 hs
    by_cases h1 : d < sv
    · have h2 : ¬sv ≤ d := by omega
      simp [startBoundCheck, startOkB, hsv, h1, h2]
    · have h2 : sv ≤ d := by omega
      simp [startBoundCheck, startOkB, hsv, h1, h2, endBoundCheck_parses end_date d he]

/-- When the timestamp of the memory and both given bounds parse, the filter
decision of the source is exactly the inclusive-bounds test. -/
lemma timelineKeep_parses (start_date end_date : Option String) (m : Memory)
    (hm : (parseISO m.timestamp).isSome = true)
    (hs : optParses start_date = true) (he : optParses end_date = true) :
    timelineKeep start_date end_date m =
      Except.ok (inclusiveBetween start_date end_date m) := by
  obtain ⟨d, hd⟩ := Option.isSome_iff_exists.1 hm
  unfold timelineKeep inclusiveBetween
  rw [hd]
  simp only [Option.getD_some]
  exact startBoundCheck_parses start_date end_date d hs he

/-- When every processed timestamp parses, the scan succeeds and keeps exactly
the memories inside the inclusive bounds, in directory order. -/
lemma timelineScan_parses (start_date end_date : Option String)
    (hs : optParses start_date = true) (he : optParses end_date = true) :
    ∀ plain : List Memory,
      plain.all (fun m => (parseISO m.timestamp).isSome) = true →
      timelineScan start_date end_date plain =
        Except.ok (plain.filter (inclusiveBetween start_date end_date))
  | [], _ => rfl
  | m :: rest, hall => by
    rw [List.all_cons, Bool.and_eq_true] at hall
    obtain ⟨hm, hrest⟩ := hall
    unfold timelineScan
    rw [timelineKeep_parses start_date end_date m hm hs he,
      timelineScan_parses start_date end_date hs he rest hrest]
    by_cases hk : inclusiveBetween start_date end_date m = true
    · simp [hk, List.filter_cons_of_pos, Except.map]
    · simp only [Bool.not_eq_true] at hk
      simp [hk, List.filter_cons_of_neg]

/-- A record whose timestamp does not parse aborts the whole scan. -/
lemma timelineScan_error (start_date end_date : Option String) :
    ∀ plain : List Memory, ∀ m ∈ plain, parseISO m.timestamp = none →
      timelineScan start_date end_date plain = Except.error ()
  | [], m, hm, _ => absurd hm (List.not_mem_nil m)
  | x :: rest, m, hm, hnone => by
    rcases List.mem_cons.1 hm with rfl | hmr
    · unfold timelineScan timelineKeep
      rw [hnone]
    · unfold timelineScan
      cases hk : timelineKeep start_date end_date x with
      | error e => rfl
      | ok b =>
        rw [timelineScan_error start_date end_date rest m hmr hnone]
        cases b <;> rfl

/-- Claim C5 as amended: when every stored timestamp and each given bound
parses, get_timeline returns exactly the records inside the inclusive bounds,
sorted by ascending timestamp; the sorted output is pairwise ordered; but a
record whose timestamp cannot be parsed makes the call raise instead of being
excluded from the result. -/
theorem C5_timeline_amended (plain : List Memory) (start_date end_date : Option String) :
    (optParses start_date = true → optParses end_date = true →
      plain.all (fun m => (parseISO m.timestamp).isSome) = true →
      get_timeline plain start_date end_date =
        Except.ok (sortByTs (plain.filter (inclusiveBetween start_date end_date)))) ∧
    (sortByTs (plain.filter (inclusiveBetween start_date end_date))).Pairwise tsLeProp ∧
    (∀ m ∈ plain, parseISO m.timestamp = none →
      get_timeline plain start_date end_date = Except.error ()) := by
  refine ⟨fun hs he hall => ?_, pairwise_sortByTs _, fun m hm hnone => ?_⟩
  · unfold get_timeline
    rw [timelineScan_parses start_date end_date hs he plain hall]
    rfl
  · unfold get_timeline
    rw [timelineScan_error start_date end_date plain m hm hnone]
    rfl

/-- A plain record carrying a timestamp datetime.fromisoformat rejects. -/
def badTsMem : Memory :=
  { id := "b1", user_id := "alice", timestamp := "not-a-date", type := "conversation",
    title := "", content := "", emotion := "neutral", encrypted := false,
    similarity := none }

/-- Counterexample to C5 as stated: a stored memory with an unparsable
timestamp does not get excluded from the listing; the scan raises. -/
theorem C5_unparsable_raises_cex :
    parseISO badTsMem.timestamp = none ∧
    get_timeline [badTsMem] none none = Except.error () := ⟨by decide, rfl⟩

/-- Three parsable records listed out of timestamp order. -/
def timelineDemo : List Memory :=
  [{ badTsMem with id := "m3", timestamp := "2024-03-01T00:00:00" },
   { badTsMem with id := "m1", timestamp := "2024-01-01T00:00:00" },
   { badTsMem with id := "m2", timestamp := "2024-02-01T00:00:00" }]

/-- Witness for the amended C5 on a concrete partition whose timestamps all
parse. -/
theorem C5_timeline_amended_witness :
    get_timeline timelineDemo none none =
      Except.ok (sortByTs (timelineDemo.filter (inclusiveBetween none none))) :=
  (C5_timeline_amended timelineDemo none none).1 rfl rfl (by decide)

/- ===================== Claims C8 and C9 ===================== -/

/-- Left folds of addition shift their accumulator. -/
lemma foldl_add_shift : ∀ (l : List (String × Nat)) (n : Nat),
    l.foldl (fun a p => a + p.2) n = n + l.foldl (fun a p => a + p.2) 0
  | [], n => by simp
  | p :: t, n => by
    rw [List.foldl_cons, List.foldl_cons, foldl_add_shift t (n + p.2),
      foldl_add_shift t (0 + p.2)]
    omega

/-- The counter sum of a cons. -/
lemma sumCounts_cons (p : String × Nat) (t : List (String × Nat)) :
    sumCounts (p :: t) = p.2 + sumCounts t := by
  unfold sumCounts
  rw [List.foldl_cons, foldl_add_shift]
  omega

/-- A counter increment raises the total by exactly one. -/
lemma sumCounts_bumpCount (k : String) : ∀ l : List (String × Nat),
    sumCounts (bumpCount l k) = sumCounts l + 1
  | [] => by simp [bumpCount, sumCounts_cons]; rfl
  | (k0, v) :: rest => by
    unfold bumpCount
    by_cases h : k0 = k
    · rw [if_pos h, sumCounts_cons, sumCounts_cons]
      omega
    · rw [if_neg h, sumCounts_cons, sumCounts_cons, sumCounts_bumpCount k rest]
      omega

/-- The emotion counter built from a window sums to the window length. -/
lemma emotionCount_sum_aux : ∀ (td : List TimelineEntry) (acc : List (String × Nat)),
    sumCounts (td.foldl (fun a entry => bumpCount a entry.emotion) acc) =
      sumCounts acc + td.length
  | [], acc => by simp
  | entry :: rest, acc => by
    rw [List.foldl_cons, emotionCount_sum_aux rest _, sumCounts_bumpCount]
    simp
    omega

/-- The counter total of a window is its length. -/
lemma sumCounts_emotionCountOf (td : List TimelineEntry) :
    sumCounts (emotionCountOf td) = td.length := by
  unfold emotionCountOf
  rw [emotionCount_sum_aux td []]
  simp [sumCounts]

/-- A counter increment never produces the empty counter. -/
lemma bumpCount_ne_nil (l : List (String × Nat)) (k : String) : bumpCount l k ≠ [] := by
  cases l with
  | nil => simp [bumpCount]
  | cons p t =>
    obtain ⟨k0, v⟩ := p
    unfold bumpCount
    split <;> simp

/-- The emotion counter of a non-empty window is non-empty. -/
lemma emotionCount_ne_nil_aux : ∀ (td : List TimelineEntry) (acc : List (String × Nat)),
    acc ≠ [] ∨ td ≠ [] →
    td.foldl (fun a entry => bumpCount a entry.emotion) acc ≠ []
  | [], acc, h => by
    rcases h with h | h
    · simpa using h
    · exact absurd rfl h
  | entry :: rest, acc, _ =>
    emotionCount_ne_nil_aux rest (bumpCount acc entry.emotion)
      (Or.inl (bumpCount_ne_nil acc entry.emotion))

/-- The emotion counter of a non-empty window is non-empty. -/
lemma emotionCountOf_ne_nil (td : List TimelineEntry) (h : td ≠ []) :
    emotionCountOf td ≠ [] :=
  emotionCount_ne_nil_aux td [] (Or.inr h)

/-- The running maximum of the Python max fold dominates its seed and every
element it has seen. -/
lemma foldl_max_ge (t : List (String × Nat)) : ∀ best : String × Nat,
    best.2 ≤ (t.foldl (fun best p => if best.2 < p.2 then p else best) best).2 ∧
    ∀ q ∈ t, q.2 ≤ (t.foldl (fun best p => if best.2 < p.2 then p else best) best).2 := by
  induction t with
  | nil => exact fun best => ⟨Nat.le_refl _, by simp⟩
  | cons x xs ih =>
    intro best
    rw [List.foldl_cons]
    obtain ⟨ihA, ihB⟩ := ih (if best.2 < x.2 then x else best)
    have hb : best.2 ≤ (if best.2 < x.2 then x else best).2 := by split <;> omega
    have hx : x.2 ≤ (if best.2 < x.2 then x else best).2 := by split <;> omega
    refine ⟨le_trans hb ihA, ?_⟩
    intro q hq
    rcases List.mem_cons.1 hq with rfl | hq2
    · exact le_trans hx ihA
    · exact ihB q hq2

/-- The first-maximum selection dominates every counter entry. -/
lemma firstMaxCount_max (l : List (String × Nat)) (p : String × Nat)
    (h : firstMaxCount l = some p) : ∀ q ∈ l, q.2 ≤ p.2 := by
  cases l with
  | nil => simp [firstMaxCount] at h
  | cons x xs =>
    simp only [firstMaxCount, Option.some_inj] at h
    intro q hq
    rcases List.mem_cons.1 hq with h1 | hq2
    · rw [h1, ← h]; exact (foldl_max_ge xs x).1
    · rw [← h]; exact (foldl_max_ge xs x).2 q hq2

/-- A non-empty counter has a first maximum. -/
lemma firstMaxCount_isSome (l : List (String × Nat)) (h : l ≠ []) :
    ∃ p, firstMaxCount l = some p := by
  cases l with
  | nil => exact absurd rfl h
  | cons x xs => exact ⟨_, rfl⟩

/-- Rule three always contributes exactly one insight. -/
lemma rule3_singleton (ec : List (String × Nat)) : ∃ s, rule3Insight ec = [s] := by
  simp only [rule3Insight]
  split_ifs <;> exact ⟨_, rfl⟩

/-- Claim C8 (confirmed): the insight list of a non-empty window has length at
most three; it is the fixed rule cascade one to four truncated at three, so
whenever rule two fires, rules one to three fill the quota and rule four is
silently dropped; and the first insight always reports the top emotion, an
emotion whose count dominates every entry of the distribution, together with
its percentage of the window. -/
theorem C8_insight_cascade (td : List TimelineEntry) (hne : td ≠ []) :
    ((get_emotion_statistics td).map TimelineStats.insights =
      some (generate_insights (emotionCountOf td) td)) ∧
    generate_insights (emotionCountOf td) td =
      (rule1Insight (emotionCountOf td) (sumCounts (emotionCountOf td)) ++
        rule2Insight (emotionCountOf td) ++ rule3Insight (emotionCountOf td) ++
        rule4Insight td).take 3 ∧
    (generate_insights (emotionCountOf td) td).length ≤ 3 ∧
    (∀ p, firstMaxCount (emotionCountOf td) = some p →
      (generate_insights (emotionCountOf td) td).head? =
        some ("You most frequently experience " ++ p.1 ++ " (" ++
          fmtPct p.2 (sumCounts (emotionCountOf td)) ++ "% of memories)") ∧
      ∀ q ∈ emotionCountOf td, q.2 ≤ p.2) ∧
    (rule2Insight (emotionCountOf td) ≠ [] →
      generate_insights (emotionCountOf td) td =
        rule1Insight (emotionCountOf td) (sumCounts (emotionCountOf td)) ++
          rule2Insight (emotionCountOf td) ++ rule3Insight (emotionCountOf td)) := by
  have hie : td.isEmpty = false := by
    cases td with
    | nil => exact absurd rfl hne
    | cons a b => rfl
  have hlen : td.length ≠ 0 := by
    cases td with
    | nil => exact absurd rfl hne
    | cons a b => simp
  have htotal_ne : sumCounts (emotionCountOf td) ≠ 0 := by
    rw [sumCounts_emotionCountOf]; exact hlen
  have hgen : generate_insights (emotionCountOf td) td =
      (rule1Insight (emotionCountOf td) (sumCounts (emotionCountOf td)) ++
        rule2Insight (emotionCountOf td) ++ rule3Insight (emotionCountOf td) ++
        rule4Insight td).take 3 := by
    simp only [generate_insights]
    rw [if_neg htotal_ne]
  refine ⟨by simp [get_emotion_statistics, hie], hgen, ?_, ?_, ?_⟩
  · rw [hgen]; exact List.length_take_le 3 _
  · intro p hp
    have hr1 : rule1Insight (emotionCountOf td) (sumCounts (emotionCountOf td)) =
        ["You most frequently experience " ++ p.1 ++ " (" ++
          fmtPct p.2 (sumCounts (emotionCountOf td)) ++ "% of memories)"] := by
      unfold rule1Insight
      rw [hp]
    refine ⟨?_, firstMaxCount_max _ p hp⟩
    rw [hgen, hr1]
    simp
  · intro h2ne
    obtain ⟨p, hp⟩ := firstMaxCount_isSome _ (emotionCountOf_ne_nil td hne)
    have hr1 : rule1Insight (emotionCountOf td) (sumCounts (emotionCountOf td)) =
        ["You most frequently experience " ++ p.1 ++ " (" ++
          fmtPct p.2 (sumCounts (emotionCountOf td)) ++ "% of memories)"] := by
      unfold rule1Insight
      rw [hp]
    have h2s : ∃ s2, rule2Insight (emotionCountOf td) = [s2] := by
      simp only [rule2Insight] at h2ne ⊢
      split_ifs at h2ne ⊢
      · exact ⟨_, rfl⟩
      · exact ⟨_, rfl⟩
      · exact absurd rfl h2ne
    obtain ⟨s2, h2⟩ := h2s
    obtain ⟨s3, h3⟩ := rule3_singleton (emotionCountOf td)
    rw [hgen, hr1, h2, h3]
    simp

/-- The three-memory window of the scenario of the spec: emotions joy, joy and
sadness on three different dates. -/
def w9demo : List TimelineEntry :=
  [{ emotion := "joy", type := "conversation", date := "2024-01-01" },
   { emotion := "joy", type := "conversation", date := "2024-01-02" },
   { emotion := "sadness", type := "conversation", date := "2024-01-03" }]

/-- Witness for C8 at the concrete three-memory window. -/
theorem C8_insight_cascade_witness :
    (generate_insights (emotionCountOf w9demo) w9demo).length ≤ 3 :=
  (C8_insight_cascade w9demo (by decide)).2.2.1

/-- The key column of a counter, in iteration order. -/
def keysOf (l : List (String × Nat)) : List String := l.map Prod.fst

/-- A counter increment leaves the keys unchanged when the key is present and
appends it otherwise. -/
lemma keysOf_bumpCount (k : String) : ∀ l : List (String × Nat),
    keysOf (bumpCount l k) =
      if k ∈ keysOf l then keysOf l else keysOf l ++ [k]
  | [] => by simp [bumpCount, keysOf]
  | (k0, v) :: rest => by
    unfold bumpCount
    by_cases h : k0 = k
    · subst h
      rw [if_pos rfl]
      simp [keysOf]
    · rw [if_neg h]
      have hk : (k ∈ keysOf ((k0, v) :: rest)) = (k ∈ keysOf rest) := by
        simp [keysOf, List.mem_cons]
        intro hc
        exact absurd hc.symm h
      by_cases h2 : k ∈ keysOf rest
      · have : keysOf (bumpCount rest k) = keysOf rest := by
          rw [keysOf_bumpCount k rest, if_pos h2]
        simp [keysOf, List.map_cons] at this ⊢
        rw [this]
        rw [if_pos (by simp [List.mem_cons]; right; simpa [keysOf] using h2)]
      · have : keysOf (bumpCount rest k) = keysOf rest ++ [k] := by
          rw [keysOf_bumpCount k rest, if_neg h2]
        have hnot : ¬k ∈ keysOf ((k0, v) :: rest) := by
          simp only [keysOf, List.map_cons, List.mem_cons]
          rintro (rfl | hc)
          · exact h rfl
          · exact h2 (by simpa [keysOf] using hc)
        rw [if_neg hnot]
        simp [keysOf, List.map_cons] at this ⊢
        rw [this]

/-- Keys of the emotion counter: no duplicates, and membership is exactly the
emotions occurring in the window. -/
lemma emotionCount_keys_aux : ∀ (td : List TimelineEntry) (acc : List (String × Nat)),
    (keysOf acc).Nodup →
    (keysOf (td.foldl (fun a entry => bumpCount a entry.emotion) acc)).Nodup ∧
    ∀ x, x ∈ keysOf (td.foldl (fun a entry => bumpCount a entry.emotion) acc) ↔
      x ∈ keysOf acc ∨ x ∈ td.map TimelineEntry.emotion
  | [], acc, h => ⟨h, by simp⟩
  | entry :: rest, acc, h => by
    rw [List.foldl_cons]
    have hnd : (keysOf (bumpCount acc entry.emotion)).Nodup := by
      rw [keysOf_bumpCount]
      by_cases hm : entry.emotion ∈ keysOf acc
      · rw [if_pos hm]; exact h
      · rw [if_neg hm]
        rw [List.nodup_append]
        exact ⟨h, List.nodup_singleton _, by
          intro a ha
          simp only [List.mem_singleton]
          rintro rfl
          exact hm ha⟩
    have hmem : ∀ x, x ∈ keysOf (bumpCount acc entry.emotion) ↔
        x ∈ keysOf acc ∨ x = entry.emotion := by
      intro x
      rw [keysOf_bumpCount]
      by_cases hm : entry.emotion ∈ keysOf acc
      · rw [if_pos hm]
        constructor
        · exact Or.inl
        · rintro (hx | rfl)
          · exact hx
          · exact hm
      · rw [if_neg hm]
        simp [List.mem_append]
    obtain ⟨ihN, ihM⟩ := emotionCount_keys_aux rest (bumpCount acc entry.emotion) hnd
    refine ⟨ihN, fun x => ?_⟩
    rw [ihM x, hmem x]
    simp only [List.map_cons, List.mem_cons]
    tauto

/-- Keys of the emotion counter of a window: no duplicates, members are exactly
the emotions of the window. -/
lemma emotionCount_keys (td : List TimelineEntry) :
    (keysOf (emotionCountOf td)).Nodup ∧
    ∀ x, x ∈ keysOf (emotionCountOf td) ↔ x ∈ td.map TimelineEntry.emotion := by
  obtain ⟨hn, hm⟩ := emotionCount_keys_aux td [] (by simp [keysOf])
  refine ⟨hn, fun x => ?_⟩
  have h2 := hm x
  simp only [keysOf, List.map_nil, List.not_mem_nil, false_or] at h2
  exact h2

/-- Claim C9 as amended: the reported diversity is the number of distinct
emotions of the window divided by the length of the eleven-label list of the
aggregator, not by the size of the thirteen-label taxonomy: disgust and
nostalgia are in the taxonomy but missing from the divisor list. -/
theorem C9_diversity_amended (td : List TimelineEntry) (hne : td ≠ []) :
    (get_emotion_statistics td).map TimelineStats.emotional_diversity =
      some (((emotionCountOf td).length : Rat) / (get_available_emotions.length : Rat)) ∧
    get_available_emotions.length = 11 ∧
    (keysOf (emotionCountOf td)).length = (emotionCountOf td).length ∧
    (keysOf (emotionCountOf td)).Nodup ∧
    (∀ x, x ∈ keysOf (emotionCountOf td) ↔ x ∈ td.map TimelineEntry.emotion) ∧
    "disgust" ∈ emotion_categories ∧ "nostalgia" ∈ emotion_categories ∧
    "disgust" ∉ get_available_emotions ∧ "nostalgia" ∉ get_available_emotions := by
  have hie : td.isEmpty = false := by
    cases td with
    | nil => exact absurd rfl hne
    | cons a b => rfl
  exact ⟨by simp [get_emotion_statistics, hie], rfl, by simp [keysOf],
    (emotionCount_keys td).1, (emotionCount_keys td).2,
    by decide, by decide, by decide, by decide⟩

/-- Counterexample to C9 as stated: on the three-memory scenario window the
code reports two elevenths, which is not two thirteenths, the value the
thirteen-label taxonomy of the claim would give. -/
theorem C9_divisor_cex :
    (get_emotion_statistics w9demo).map TimelineStats.emotional_diversity =
      some ((2 : Rat) / 11) ∧
    keysOf (emotionCountOf w9demo) = ["joy", "sadness"] ∧
    emotion_categories.length = 13 ∧
    (2 : Rat) / 11 ≠ 2 / 13 := by
  refine ⟨?_, by decide, rfl, by norm_num⟩
  have h : (get_emotion_statistics w9demo).map TimelineStats.emotional_diversity =
      some (((emotionCountOf w9demo).length : Rat) /
        (get_available_emotions.length : Rat)) := rfl
  rw [h, show (emotionCountOf w9demo).length = 2 from rfl,
    show get_available_emotions.length = 11 from rfl]
  norm_num

/-- Witness for the amended C9 at the concrete scenario window. -/
theorem C9_diversity_amended_witness :
    (get_emotion_statistics w9demo).map TimelineStats.emotional_diversity =
      some (((emotionCountOf w9demo).length : Rat) /
        (get_available_emotions.length : Rat)) :=
  (C9_diversity_amended w9demo (by decide)).1
